import Mathlib

/-!
Shallow embedding of the service-center request tracker
(`src/database.py` and the workflow helpers of `src/app.py`).

Modelling conventions, used consistently below:

* SQLite rows become Lean structures; tables become lists of rows kept in a
  `Db` record together with the AUTOINCREMENT counters.
* Timestamps are modelled as integer seconds on a linear time line
  (`datetime.now()` becomes an explicit `now : Int` argument; the SQLite
  `CURRENT_TIMESTAMP` default uses the same `now`).  The textual form that
  `strftime("%Y-%m-%d %H:%M:%S")` stores in TEXT columns is modelled by
  `fmtTs` (decimal rendering of the second count, an order-isomorphic
  encoding at second granularity), and best-effort parsing with
  `datetime.fromisoformat` (after the `" " -> "T"` replacement) is modelled
  by `parseTs`, which fails (returns `none`) exactly on strings that are not
  such a rendering — this keeps the "malformed text parses to nothing"
  behaviour of the source.
* `float` money columns carry no claim-relevant arithmetic and are modelled
  as integers.
* The `try/except` wrappers in `database.py` turn failures of the underlying
  store (unique-constraint violations, transaction failures) into
  `False`/`None` results; the embedding models the store itself as always
  accepting well-formed writes, so only the logic-level failure branches
  (row not found, `rowcount == 0`) appear below.
-/

/-- Rendering of a timestamp into the TEXT column form (models
`strftime("%Y-%m-%d %H:%M:%S")`, see the header comment). -/
def fmtTs (t : Int) : String := toString t

/-- Decimal digit value of a character, `none` for a non-digit. -/
def decDigit? (c : Char) : Option Nat :=
  if '0' ≤ c ∧ c ≤ '9' then some (c.toNat - '0'.toNat) else none

/-- Accumulating decimal reader over a character list; fails on the first
non-digit. -/
def natFromDigits : List Char → Nat → Option Nat
  | [], acc => some acc
  | c :: cs, acc =>
    match decDigit? c with
    | some d => natFromDigits cs (acc * 10 + d)
    | none => none

/-- Best-effort parsing of a stored timestamp string back to seconds (models
`datetime.fromisoformat(str(dl).replace(" ", "T"))`: it recovers the second
count from the rendering produced by `fmtTs` and fails — `none`, modelling
the swallowed `ValueError` — on any other text). -/
def parseTs (s : String) : Option Int :=
  match s.data with
  | [] => none
  | '-' :: rest =>
    match rest with
    | [] => none
    | _ :: _ => (natFromDigits rest 0).map fun n => -(n : Int)
  | l => (natFromDigits l 0).map fun n => (n : Int)

/-- Row of the `users` table. -/
structure UserRow where
  id : Nat
  username : String
  password : String
  full_name : String
  role : String
  is_active : Bool
deriving DecidableEq, Repr

/-- Row of the `requests` table. -/
structure RequestRow where
  id : Nat
  request_number : String
  created_date : Int
  equipment_type : Option String
  device_model : Option String
  fault_type : Option String
  problem_description : Option String
  customer_name : Option String
  customer_phone : Option String
  status : String
  assigned_to : Option Nat
  assist_to : Option Nat
  estimated_cost : Option Int
  actual_cost : Option Int
  deadline : Option String
  deadline_extended_to : Option String
  extension_reason : Option String
  client_approval : Option String
  client_approval_at : Option Int
  extended_by : Option Nat
  completed_date : Option Int
deriving DecidableEq, Repr

/-- Row of the `status_history` table. -/
structure StatusHistoryRow where
  id : Nat
  request_id : Nat
  old_status : Option String
  new_status : String
  changed_by : Option Nat
  changed_at : Int
deriving DecidableEq, Repr

/-- Row of the `help_requests` table. -/
structure HelpRequestRow where
  id : Nat
  request_id : Nat
  requested_by : Nat
  message : String
  status : String
  created_at : Int
  resolved_by : Option Nat
  resolved_at : Option Int
  resolution_note : Option String
deriving DecidableEq, Repr

/-- The database state: one list per table plus the AUTOINCREMENT counters. -/
structure Db where
  users : List UserRow
  requests : List RequestRow
  status_history : List StatusHistoryRow
  help_requests : List HelpRequestRow
  next_request_id : Nat
  next_history_id : Nat
  next_help_id : Nat
deriving DecidableEq, Repr

/-- Model of `Database.authenticate_user`: `SELECT * FROM users WHERE
username = ? AND password = ? AND is_active = 1`, with `fetchone`.  The
SHA-256 primitive `_sha256` is external library code (`hashlib`), so it is
taken as an abstract parameter `hash` here. -/
def authenticate_user (hash : String → String) (db : Db)
    (username password : String) : Option UserRow :=
  let hp := hash password
  db.users.find? fun u => u.username == username && u.password == hp && u.is_active

/-- Boolean test that `p` is a leading piece of `s` (models SQL
`LIKE 'p%'` on two concrete strings). -/
def listLead : List Char → List Char → Bool
  | [], _ => true
  | _ :: _, [] => false
  | a :: as, b :: bs => a == b && listLead as bs

/-- String version of `listLead`, used for `request_number LIKE ?`. -/
def strLead (p s : String) : Bool := listLead p.data s.data

/-- Zero-padding of a decimal rendering to width `w` (models Python
`f"{n:0wd}"` formatting: shorter strings are left-padded with zeros, longer
ones kept whole). -/
def padZeros (w : Nat) (s : String) : String :=
  String.mk (List.replicate (w - s.length) '0') ++ s

/-- Calendar-day part of a timestamp as used inside request numbers (models
`datetime.now().strftime("%Y%m%d")`: a fixed-width rendering of the day the
timestamp falls in). -/
def datePart (t : Int) : String := padZeros 8 (toString (t / 86400))

/-- Model of `Database.generate_request_number`: counts the rows whose
`request_number` is `LIKE 'REQ<date>%'` and appends the count plus one as a
four-digit (zero-padded) sequence. -/
def generate_request_number (db : Db) (now : Int) : String :=
  let pre := "REQ" ++ datePart now
  let cnt := (db.requests.filter fun r => strLead pre r.request_number).length + 1
  pre ++ padZeros 4 (toString cnt)

/-- Caller-supplied fields of `Database.add_request` (`request_data`). -/
structure AddRequestData where
  equipment_type : Option String
  device_model : Option String
  fault_type : Option String
  problem_description : Option String
  customer_name : Option String
  customer_phone : Option String
  estimated_cost : Option Int
deriving DecidableEq, Repr

/-- The row inserted by `Database.add_request` (the `INSERT INTO requests`
statement: status literal `'открыта'`, deadline `now + N days`, estimated
cost `float(request_data.get("estimated_cost") or 0)`, everything else at
its column default). -/
def newRequestRow (db : Db) (now : Int) (data : AddRequestData)
    (default_deadline_days : Int) : RequestRow :=
  { id := db.next_request_id
    request_number := generate_request_number db now
    created_date := now
    equipment_type := data.equipment_type
    device_model := data.device_model
    fault_type := data.fault_type
    problem_description := data.problem_description
    customer_name := data.customer_name
    customer_phone := data.customer_phone
    status := "открыта"
    assigned_to := none
    assist_to := none
    estimated_cost := some (data.estimated_cost.getD 0)
    actual_cost := none
    deadline := some (fmtTs (now + default_deadline_days * 86400))
    deadline_extended_to := none
    extension_reason := none
    client_approval := none
    client_approval_at := none
    extended_by := none
    completed_date := none }

/-- The initial `status_history` row inserted by `Database.add_request`
(`old_status = NULL`, `new_status = 'открыта'`, `changed_by = NULL`). -/
def initHistoryRow (db : Db) (now : Int) : StatusHistoryRow :=
  { id := db.next_history_id
    request_id := db.next_request_id
    old_status := none
    new_status := "открыта"
    changed_by := none
    changed_at := now }

/-- Model of `Database.add_request`: generates the request number, inserts
the request row and the initial history row in one committed transaction,
and returns the new id (`cursor.lastrowid`). -/
def add_request (db : Db) (now : Int) (data : AddRequestData)
    (default_deadline_days : Int) : Db × Option Nat :=
  let rid := db.next_request_id
  ({ db with
      requests := db.requests ++ [newRequestRow db now data default_deadline_days]
      status_history := db.status_history ++ [initHistoryRow db now]
      next_request_id := rid + 1
      next_history_id := db.next_history_id + 1 }, some rid)

/-- Model of `Database.update_request_status`: reads the current status, and
in one committed transaction sets `status` and `completed_date`
(`datetime.now()` when the new status is `'завершена'`, `NULL` otherwise)
and appends the history row.  `int(changed_by) if changed_by else None`
maps a missing or zero actor id to `NULL`. -/
def update_request_status (db : Db) (now : Int) (rid : Nat)
    (new_status : String) (changed_by : Option Nat) : Db × Bool :=
  match db.requests.find? (fun r => r.id == rid) with
  | none => (db, false)
  | some row =>
    let old_status := row.status
    let completed : Option Int := if new_status == "завершена" then some now else none
    let actor : Option Nat :=
      match changed_by with
      | some c => if c == 0 then none else some c
      | none => none
    let hist : StatusHistoryRow :=
      { id := db.next_history_id
        request_id := rid
        old_status := some old_status
        new_status := new_status
        changed_by := actor
        changed_at := now }
    ({ db with
        requests := db.requests.map fun r =>
          if r.id == rid then { r with status := new_status, completed_date := completed } else r
        status_history := db.status_history ++ [hist]
        next_history_id := db.next_history_id + 1 }, true)

/-- Model of `Database.extend_deadline`: one `UPDATE` writing the five
extension columns of the addressed row; the result is `rowcount > 0`.
No validation of `reason` or `approval_text` happens here. -/
def extend_deadline (db : Db) (now : Int) (rid : Nat) (new_deadline : String)
    (reason approval_text : String) (extended_by : Nat) : Db × Bool :=
  ({ db with
      requests := db.requests.map fun r =>
        if r.id == rid then
          { r with
              deadline_extended_to := some new_deadline
              extension_reason := some reason
              client_approval := some approval_text
              client_approval_at := some now
              extended_by := some extended_by }
        else r }, db.requests.any fun r => r.id == rid)

/-- Model of `Database.create_help_request`: inserts an `'open'` help row
and returns the new id. -/
def create_help_request (db : Db) (now : Int) (rid requested_by : Nat)
    (message : String) : Db × Option Nat :=
  let hid := db.next_help_id
  ({ db with
      help_requests := db.help_requests ++
        [{ id := hid
           request_id := rid
           requested_by := requested_by
           message := message
           status := "open"
           created_at := now
           resolved_by := none
           resolved_at := none
           resolution_note := none }]
      next_help_id := hid + 1 }, some hid)

/-- Model of `Database.resolve_help_request`: one `UPDATE` stamping status
`'resolved'`, resolver, resolution time and note on the addressed help row;
the result is `rowcount > 0`. -/
def resolve_help_request (db : Db) (now : Int) (hid resolved_by : Nat)
    (note : String) : Db × Bool :=
  ({ db with
      help_requests := db.help_requests.map fun h =>
        if h.id == hid then
          { h with
              status := "resolved"
              resolved_by := some resolved_by
              resolved_at := some now
              resolution_note := some note }
        else h }, db.help_requests.any fun h => h.id == hid)

/-- Whitelisted column names of `Database.update_request` (`allowed`). -/
def allowedFields : List String :=
  ["equipment_type", "device_model", "fault_type", "problem_description",
   "customer_name", "customer_phone",
   "estimated_cost", "actual_cost",
   "deadline"]

/-- A dynamically typed value supplied in `update_data` (SQLite has no
static column types; the three shapes that actually occur are NULL, text
and numbers). -/
inductive FieldVal where
  | vnull : FieldVal
  | vstr : String → FieldVal
  | vint : Int → FieldVal
deriving DecidableEq, Repr

/-- Coercion of a supplied value into a TEXT column. -/
def asStr : FieldVal → Option String
  | .vnull => none
  | .vstr s => some s
  | .vint n => some (toString n)

/-- Coercion of a supplied value into a numeric column. -/
def asNum : FieldVal → Option Int
  | .vnull => none
  | .vstr s => s.toInt?
  | .vint n => some n

/-- One `SET column = ?` assignment of `Database.update_request`; a key
outside the whitelist leaves the row untouched. -/
def setAllowedField (r : RequestRow) (k : String) (v : FieldVal) : RequestRow :=
  if k = "equipment_type" then { r with equipment_type := asStr v }
  else if k = "device_model" then { r with device_model := asStr v }
  else if k = "fault_type" then { r with fault_type := asStr v }
  else if k = "problem_description" then { r with problem_description := asStr v }
  else if k = "customer_name" then { r with customer_name := asStr v }
  else if k = "customer_phone" then { r with customer_phone := asStr v }
  else if k = "estimated_cost" then { r with estimated_cost := asNum v }
  else if k = "actual_cost" then { r with actual_cost := asNum v }
  else if k = "deadline" then { r with deadline := asStr v }
  else r

/-- The whole `SET` clause applied to one row: `for k in allowed: if k in
update_data: ...` — the iteration is over the whitelist, so unlisted keys
of `update_data` are never consulted. -/
def applyAllowed (upd : List (String × FieldVal)) (r : RequestRow) : RequestRow :=
  List.foldl
    (fun acc k =>
      match upd.lookup k with
      | some v => setAllowedField acc k v
      | none => acc)
    r allowedFields

/-- Model of `Database.update_request`: builds the field list from the
whitelist, returns `True` without touching anything when no whitelisted key
is present, and otherwise updates the addressed row and reports
`rowcount > 0`. -/
def update_request (db : Db) (rid : Nat) (upd : List (String × FieldVal)) : Db × Bool :=
  let ks := allowedFields.filter fun k => (upd.lookup k).isSome
  if ks.isEmpty then (db, true)
  else
    ({ db with
        requests := db.requests.map fun r =>
          if r.id == rid then applyAllowed upd r else r },
      db.requests.any fun r => r.id == rid)

/-- Model of `effective_deadline` in `src/app.py`:
`r.get("deadline_extended_to") or r.get("deadline") or ""` — Python `or`
skips both `None` and the empty string. -/
def effective_deadline (r : RequestRow) : String :=
  match r.deadline_extended_to with
  | some s => if s = "" then (match r.deadline with
                              | some t => if t = "" then "" else t
                              | none => "") else s
  | none => match r.deadline with
            | some t => if t = "" then "" else t
            | none => ""

/-- Model of `deadline_state` in `src/app.py`: the risk indicator over the
effective deadline; any parse failure is swallowed by the `except` branch
and yields the empty string. -/
def deadline_state (r : RequestRow) (now : Int) : String :=
  if r.status = "завершена" then ""
  else
    let dl := effective_deadline r
    if dl = "" then ""
    else
      match parseTs dl with
      | none => ""
      | some dt =>
        let delta := dt - now
        if delta < 0 then "Просрочено"
        else if delta ≤ 24 * 3600 then "Риск срыва"
        else "В сроке"

/-- Model of the `can_manage` guard of `page_view_request` in `src/app.py`:
`is_admin() or (is_specialist() and assigned_to and int(assigned_to) ==
user_id())` (Python truthiness makes an assigned id of `0` falsy). -/
def can_manage (u : UserRow) (assigned_to : Option Nat) : Bool :=
  u.role == "admin" ||
    (u.role == "specialist" &&
      (match assigned_to with
       | some a => !(a == 0) && a == u.id
       | none => false))

/-- Model of the status-save action of `page_view_request`: the selectbox
and the save button exist only under `can_manage` and only when the
selected status differs from the current one; the button then calls
`update_request_status(r["id"], sel, user_id())`. -/
def page_save_status (db : Db) (now : Int) (u : UserRow) (r : RequestRow)
    (sel : String) : Db × Bool :=
  if can_manage u r.assigned_to && !(sel == r.status) then
    update_request_status db now r.id sel (some u.id)
  else (db, false)

/-- Model of Python `str.strip()`: drop whitespace from both ends. -/
def stripStr (s : String) : String :=
  String.mk (((s.data.dropWhile Char.isWhitespace).reverse.dropWhile Char.isWhitespace).reverse)

/-- Model of the deadline-extension action of `page_quality_control` in
`src/app.py`: the handler refuses (and does not call the database) unless
the approval checkbox is set and both `reason.strip()` and
`approval.strip()` are non-empty; only then does it call
`extend_deadline` with the stripped texts. -/
def page_extend_action (db : Db) (now : Int) (rid : Nat) (new_deadline : String)
    (reason approval : String) (approved : Bool) (uid : Nat) : Db × Bool :=
  if !approved then (db, false)
  else if stripStr reason = "" then (db, false)
  else if stripStr approval = "" then (db, false)
  else extend_deadline db now rid new_deadline (stripStr reason) (stripStr approval) uid

/-- One row of the `list_open_help_requests` SELECT (help columns joined
with the owning request and the user names). -/
structure HelpView where
  help_id : Nat
  request_id : Nat
  message : String
  created_at : Int
  request_number : String
  status : String
  deadline : Option String
  deadline_extended_to : Option String
  assigned_to : Option Nat
  assigned_name : Option String
  assist_to : Option Nat
  assist_name : Option String
  requested_by : Nat
  requested_by_name : String
deriving DecidableEq, Repr

/-- The JOIN part of `list_open_help_requests`: inner joins on the owning
request and on the requesting user drop a help row whose references are
dangling; the two name joins are LEFT JOINs. -/
def mkHelpView (db : Db) (h : HelpRequestRow) : Option HelpView :=
  match db.requests.find? (fun r => r.id == h.request_id),
        db.users.find? (fun u => u.id == h.requested_by) with
  | some r, some u3 =>
    some
      { help_id := h.id
        request_id := h.request_id
        message := h.message
        created_at := h.created_at
        request_number := r.request_number
        status := r.status
        deadline := r.deadline
        deadline_extended_to := r.deadline_extended_to
        assigned_to := r.assigned_to
        assigned_name :=
          (r.assigned_to.bind fun i => db.users.find? fun u => u.id == i).map
            fun u => u.full_name
        assist_to := r.assist_to
        assist_name :=
          (r.assist_to.bind fun i => db.users.find? fun u => u.id == i).map
            fun u => u.full_name
        requested_by := h.requested_by
        requested_by_name := u3.full_name }
  | _, _ => none

/-- The `ORDER BY hr.created_at DESC` relation. -/
def hvNewer (a b : HelpView) : Prop := b.created_at ≤ a.created_at

instance : DecidableRel hvNewer := fun a b =>
  inferInstanceAs (Decidable (b.created_at ≤ a.created_at))

instance : IsTotal HelpView hvNewer := ⟨fun a b => le_total b.created_at a.created_at⟩

instance : IsTrans HelpView hvNewer := ⟨fun _ _ _ hab hbc => le_trans hbc hab⟩

/-- Model of `Database.list_open_help_requests`: keep the `'open'` help
rows, perform the joins, and order the result newest-first. -/
def list_open_help_requests (db : Db) : List HelpView :=
  List.insertionSort hvNewer
    ((db.help_requests.filter fun h => h.status == "open").filterMap (mkHelpView db))

/-- One `setStatus` call of a call sequence (the id, the new status, the
acting user and the wall-clock instant of the call). -/
structure StatusOp where
  rid : Nat
  new_status : String
  changed_by : Option Nat
  now : Int
deriving DecidableEq, Repr

/-- Folding a sequence of `update_request_status` calls over the database. -/
def applyStatusOps (db : Db) : List StatusOp → Db
  | [] => db
  | op :: ops => applyStatusOps (update_request_status db op.now op.rid op.new_status op.changed_by).1 ops

/-- The completion-timestamp invariant of the spec: `completed_date` is
non-null exactly when the status is `'завершена'`. -/
def statusInvB (r : RequestRow) : Bool :=
  r.completed_date.isSome == (r.status == "завершена")

/-- History rows belonging to one request. -/
def historyFor (db : Db) (rid : Nat) : List StatusHistoryRow :=
  db.status_history.filter fun h => h.request_id == rid

/-- Sample admin user for concrete instances. -/
def uAdmin : UserRow :=
  { id := 1, username := "admin", password := "h1", full_name := "Администратор",
    role := "admin", is_active := true }

/-- Sample specialist user (assigned technician in the samples). -/
def uSpec : UserRow :=
  { id := 2, username := "ivanov", password := "h2", full_name := "Иванов",
    role := "specialist", is_active := true }

/-- Sample second specialist user, not assigned anywhere. -/
def uSpec2 : UserRow :=
  { id := 3, username := "petrov", password := "h3", full_name := "Петров",
    role := "specialist", is_active := true }

/-- Sample request row: open, assigned to `uSpec`, deadline at second 259200. -/
def rqSample : RequestRow :=
  { id := 1, request_number := "REQ000000000001", created_date := 0,
    equipment_type := some "Кондиционер", device_model := some "Midea X",
    fault_type := some "Шум", problem_description := some "Сильный шум",
    customer_name := some "Иванов", customer_phone := some "89990000000",
    status := "открыта", assigned_to := some 2, assist_to := none,
    estimated_cost := some 1000, actual_cost := none,
    deadline := some "259200", deadline_extended_to := none,
    extension_reason := none, client_approval := none,
    client_approval_at := none, extended_by := none, completed_date := none }

/-- Sample database holding the three users and the one request. -/
def dbSample : Db :=
  { users := [uAdmin, uSpec, uSpec2], requests := [rqSample],
    status_history :=
      [{ id := 1, request_id := 1, old_status := none, new_status := "открыта",
         changed_by := none, changed_at := 0 }],
    help_requests := [], next_request_id := 2, next_history_id := 2, next_help_id := 1 }

/-- Sample request payload for concrete instances. -/
def dataSample : AddRequestData :=
  { equipment_type := some "Кондиционер", device_model := some "LG Y",
    fault_type := some "Шум", problem_description := some "Сильный шум",
    customer_name := some "Петров", customer_phone := some "89991111111",
    estimated_cost := some 2000 }

/-- Serialized creation run: perform the `add_request` calls one after the
other, collecting the request number generated at each step. -/
def addSeq (db : Db) : List (Int × AddRequestData) → Db × List String
  | [] => (db, [])
  | (t, data) :: rest =>
      let rn := generate_request_number db t
      let stepped := (add_request db t data 3).1
      let tail := addSeq stepped rest
      (tail.1, rn :: tail.2)

/-- Number of stored request numbers carrying the day-`d` prefix (the
`COUNT(*)` of `generate_request_number`). -/
def sameDayCount (db : Db) (d : Int) : Nat :=
  (db.requests.filter fun r =>
    strLead ("REQ" ++ padZeros 8 (toString d)) r.request_number).length

/-- Empty database (the state right after `create_tables` with no seeded
requests). -/
def dbEmpty : Db :=
  { users := [], requests := [], status_history := [], help_requests := [],
    next_request_id := 1, next_history_id := 1, next_help_id := 1 }

/-- Identity stand-in for the hash primitive in concrete instances. -/
def hashId (s : String) : String := s

/-- Sample first open help row on the sample request. -/
def hrq1 : HelpRequestRow :=
  { id := 1, request_id := 1, requested_by := 2, message := "нужна помощь",
    status := "open", created_at := 10, resolved_by := none, resolved_at := none,
    resolution_note := none }

/-- Sample second open help row on the same request. -/
def hrq2 : HelpRequestRow :=
  { id := 2, request_id := 1, requested_by := 2, message := "все еще нужна помощь",
    status := "open", created_at := 20, resolved_by := none, resolved_at := none,
    resolution_note := none }

/-- Sample database with the two open help rows. -/
def dbHelp : Db := { dbSample with help_requests := [hrq1, hrq2], next_help_id := 3 }

/-- The joined view of `hrq1` over `dbHelp`. -/
def vw1 : HelpView :=
  { help_id := 1, request_id := 1, message := "нужна помощь", created_at := 10,
    request_number := "REQ000000000001", status := "открыта",
    deadline := some "259200", deadline_extended_to := none,
    assigned_to := some 2, assigned_name := some "Иванов",
    assist_to := none, assist_name := none,
    requested_by := 2, requested_by_name := "Иванов" }

/-- The joined view of `hrq2` over `dbHelp`. -/
def vw2 : HelpView :=
  { help_id := 2, request_id := 1, message := "все еще нужна помощь", created_at := 20,
    request_number := "REQ000000000001", status := "открыта",
    deadline := some "259200", deadline_extended_to := none,
    assigned_to := some 2, assigned_name := some "Иванов",
    assist_to := none, assist_name := none,
    requested_by := 2, requested_by_name := "Иванов" }

/-- The columns `update_request` may never touch (everything outside the
whitelist). -/
def frameProj (r : RequestRow) :
    Nat × String × Int × String × Option Nat × Option Nat × Option String ×
      Option String × Option String × Option Int × Option Nat × Option Int :=
  (r.id, r.request_number, r.created_date, r.status, r.assigned_to, r.assist_to,
   r.deadline_extended_to, r.extension_reason, r.client_approval,
   r.client_approval_at, r.extended_by, r.completed_date)

/-- One `update_request_status` call keeps the completion-timestamp
invariant on every request row. -/
theorem statusInv_step (db : Db) (now : Int) (rid : Nat) (s : String) (cb : Option Nat)
    (h : ∀ r ∈ db.requests, statusInvB r = true) :
    ∀ r ∈ (update_request_status db now rid s cb).1.requests, statusInvB r = true := by
  intro r hr
  unfold update_request_status at hr
  cases hfind : db.requests.find? (fun r => r.id == rid) with
  | none =>
    rw [hfind] at hr
    exact h r hr
  | some row =>
    rw [hfind] at hr
    simp only [List.mem_map] at hr
    obtain ⟨r0, hr0, rfl⟩ := hr
    by_cases hid : (r0.id == rid) = true
    · simp only [hid, if_true, statusInvB]
      cases hcs : (s == "завершена") <;> simp [hcs]
    · simp only [hid, if_false, Bool.false_eq_true]
      exact h r0 hr0

/-- Any sequence of `update_request_status` calls keeps the
completion-timestamp invariant on every request row. -/
theorem statusInv_seq (ops : List StatusOp) :
    ∀ db : Db, (∀ r ∈ db.requests, statusInvB r = true) →
      ∀ r ∈ (applyStatusOps db ops).requests, statusInvB r = true := by
  induction ops with
  | nil => intro db h; exact h
  | cons op ops ih =>
    intro db h
    exact ih _ (statusInv_step db op.now op.rid op.new_status op.changed_by h)

/-- C1: for every request and every sequence of `update_request_status`
calls, `completed_date` is non-null iff the status is `'завершена'`: a
transition to `'завершена'` stamps the completion time and any other
transition clears it, so the biconditional holds after every observed
state, across arbitrary repeated status flips. -/
theorem c1_completed_iff_status (db : Db) (ops : List StatusOp)
    (h0 : ∀ r ∈ db.requests, statusInvB r = true) :
    ∀ r ∈ (applyStatusOps db ops).requests, statusInvB r = true :=
  statusInv_seq ops db h0

/-- Witness for C1 at a concrete database and a concrete flip sequence
(complete, reopen, complete again). -/
theorem c1_witness :
    (∀ r ∈ dbSample.requests, statusInvB r = true) ∧
    (∀ r ∈ (applyStatusOps dbSample
        [⟨1, "завершена", some 2, 100⟩, ⟨1, "открыта", some 2, 200⟩,
         ⟨1, "завершена", some 2, 300⟩]).requests, statusInvB r = true) :=
  ⟨by decide, c1_completed_iff_status dbSample _ (by decide)⟩

/-- C4: every successful `update_request_status` call appends exactly one
history row recording the old status read at call time, the new status and
the acting user, in the same returned (committed) state as the status
update, and the call reports failure exactly when the request id is
unknown (a rejected write by the underlying store, the only other failure
source in the Python wrapper, is outside this embedding, which models the
store as accepting).  A failing call leaves the database untouched. -/
theorem c4_status_history_atomic (db : Db) (now : Int) (rid : Nat) (s : String)
    (cb : Option Nat) (hcb : cb ≠ some 0) :
    ((update_request_status db now rid s cb).2 = false ↔
        db.requests.find? (fun r => r.id == rid) = none) ∧
    ((update_request_status db now rid s cb).2 = false →
        (update_request_status db now rid s cb).1 = db) ∧
    (∀ row, db.requests.find? (fun r => r.id == rid) = some row →
        (update_request_status db now rid s cb).2 = true ∧
        (update_request_status db now rid s cb).1.status_history =
          db.status_history ++
            [{ id := db.next_history_id, request_id := rid,
               old_status := some row.status, new_status := s,
               changed_by := cb, changed_at := now }] ∧
        (update_request_status db now rid s cb).1.requests =
          db.requests.map fun r =>
            if r.id == rid then
              { r with status := s,
                       completed_date := if s == "завершена" then some now else none }
            else r) := by
  cases hfind : db.requests.find? (fun r => r.id == rid) with
  | none =>
    refine ⟨?_, ?_, ?_⟩
    · simp [update_request_status, hfind]
    · intro _; simp [update_request_status, hfind]
    · intro row hrow; exact absurd hrow (by simp)
  | some row =>
    refine ⟨?_, ?_, ?_⟩
    · simp [update_request_status, hfind]
    · intro hfalse; exfalso
      simp [update_request_status, hfind] at hfalse
    · intro row2 hrow2
      injection hrow2 with hrow2
      subst hrow2
      refine ⟨by simp [update_request_status, hfind], ?_, ?_⟩
      · cases cb with
        | none => simp [update_request_status, hfind]
        | some c =>
          have hc : ¬ c = 0 := fun h => hcb (by rw [h])
          simp [update_request_status, hfind, hc]
      · simp [update_request_status, hfind]

/-- Witness for C4 at a concrete database, completing the sample request. -/
theorem c4_witness :
    (some 2 ≠ some (0 : Nat)) ∧
    ((update_request_status dbSample 100 1 "завершена" (some 2)).2 = false ↔
      dbSample.requests.find? (fun r => r.id == 1) = none) :=
  ⟨by decide, (c4_status_history_atomic dbSample 100 1 "завершена" (some 2) (by decide)).1⟩

/-- C2 counterexample: a specialist who is not the assigned technician (and
not admin) calls `update_request_status` on the sample request; the call
succeeds (`True`, no Forbidden error) and both the status and the status
history change, refuting the claim that the call fails and leaves the
request untouched. -/
theorem c2_counterexample :
    uSpec2.role ≠ "admin" ∧ rqSample.assigned_to ≠ some uSpec2.id ∧
    rqSample ∈ dbSample.requests ∧
    (update_request_status dbSample 100 1 "в процессе ремонта" (some uSpec2.id)).2 = true ∧
    (update_request_status dbSample 100 1 "в процессе ремонта" (some uSpec2.id)).1.requests.map
        (fun r => r.status) = ["в процессе ремонта"] ∧
    (update_request_status dbSample 100 1 "в процессе ремонта" (some uSpec2.id)).1.status_history ≠
      dbSample.status_history := by decide

/-- C2 (amended): `update_request_status` itself performs no authorization;
the Forbidden behaviour lives in the presentation layer, where
`page_view_request` computes `can_manage` and offers the status-change
action only to an admin or to the assigned specialist.  For any acting user
who is neither admin nor the request's assigned technician, `can_manage` is
false, so the save action issues no database call and the database is
returned unchanged with a failure result. -/
theorem c2_amended_forbidden_guard (db : Db) (now : Int) (u : UserRow)
    (r : RequestRow) (sel : String) (hadmin : u.role ≠ "admin")
    (hassigned : r.assigned_to ≠ some u.id) :
    can_manage u r.assigned_to = false ∧
    page_save_status db now u r sel = (db, false) := by
  have hcm : can_manage u r.assigned_to = false := by
    unfold can_manage
    have hra : (u.role == "admin") = false := by
      cases hr : u.role == "admin" with
      | false => rfl
      | true => exact absurd (eq_of_beq hr) hadmin
    rw [hra]
    cases hasg : r.assigned_to with
    | none => simp
    | some a =>
      have ha : (a == u.id) = false := by
        cases h2 : a == u.id with
        | false => rfl
        | true =>
          exact absurd (hasg ▸ congrArg some (eq_of_beq h2)) hassigned
      simp [ha]
  refine ⟨hcm, ?_⟩
  unfold page_save_status
  rw [hcm]
  simp

/-- Witness for C2 (amended) at the concrete sample: `uSpec2` is a
specialist not assigned to `rqSample`. -/
theorem c2_witness :
    uSpec2.role ≠ "admin" ∧ rqSample.assigned_to ≠ some uSpec2.id ∧
    (can_manage uSpec2 rqSample.assigned_to = false ∧
      page_save_status dbSample 100 uSpec2 rqSample "завершена" = (dbSample, false)) :=
  ⟨by decide, by decide,
    c2_amended_forbidden_guard dbSample 100 uSpec2 rqSample "завершена" (by decide) (by decide)⟩

/-- C3 counterexample: `extend_deadline` called with an empty reason on the
sample request succeeds (`True`, no InvalidArgument error) and writes all
five extension fields, refuting the claim that the call fails and mutates
none of them. -/
theorem c3_counterexample :
    stripStr "" = "" ∧ dbSample.requests = [rqSample] ∧
    (extend_deadline dbSample 100 1 "999999" "" "согласовано по телефону" 1).2 = true ∧
    (extend_deadline dbSample 100 1 "999999" "" "согласовано по телефону" 1).1.requests.map
        (fun r => (r.deadline_extended_to, r.extension_reason, r.client_approval)) =
      [(some "999999", some "", some "согласовано по телефону")] ∧
    (extend_deadline dbSample 100 1 "999999" "" "согласовано по телефону" 1).1.requests.map
        (fun r => (r.client_approval_at, r.extended_by)) = [(some 100, some 1)] := by
  decide

/-- C3 (amended): `Database.extend_deadline` itself performs no input
validation; the rejection of empty inputs lives in the caller
(`page_quality_control`), which refuses to call the database when the
stripped reason or the stripped approval text is empty, so the database —
and in particular all five extension fields — is returned unchanged with a
failure result. -/
theorem c3_amended_caller_validates (db : Db) (now : Int) (rid : Nat)
    (nd reason approval : String) (approved : Bool) (uid : Nat)
    (h : stripStr reason = "" ∨ stripStr approval = "") :
    page_extend_action db now rid nd reason approval approved uid = (db, false) := by
  unfold page_extend_action
  cases approved with
  | false => simp
  | true =>
    rcases h with h | h
    · simp [h]
    · by_cases hr : stripStr reason = ""
      · simp [hr]
      · simp [hr, h]

/-- Witness for C3 (amended): an empty reason with the approval checkbox
set still leaves the sample database untouched. -/
theorem c3_witness :
    (stripStr "" = "" ∨ stripStr "ok" = "") ∧
    page_extend_action dbSample 100 1 "999999" "" "ok" true 1 = (dbSample, false) :=
  ⟨Or.inl (by decide),
    c3_amended_caller_validates dbSample 100 1 "999999" "" "ok" true 1 (Or.inl (by decide))⟩

/-- C5: a successful `add_request` creates the request with status
`'открыта'`, stamps the planned deadline as the creation instant plus the
configurable default of 3 days, and inserts — in the same creation
transaction — exactly one initial history row with old status null and new
status `'открыта'`, which is the only history row of the fresh request. -/
theorem c5_create_defaults (db : Db) (now : Int) (data : AddRequestData)
    (hfresh : ∀ h ∈ db.status_history, h.request_id ≠ db.next_request_id) :
    (add_request db now data 3).2 = some db.next_request_id ∧
    (add_request db now data 3).1.requests = db.requests ++ [newRequestRow db now data 3] ∧
    (newRequestRow db now data 3).status = "открыта" ∧
    (newRequestRow db now data 3).deadline = some (fmtTs (now + 3 * 86400)) ∧
    (newRequestRow db now data 3).completed_date = none ∧
    (initHistoryRow db now).old_status = none ∧
    (initHistoryRow db now).new_status = "открыта" ∧
    (initHistoryRow db now).request_id = db.next_request_id ∧
    (add_request db now data 3).1.status_history = db.status_history ++ [initHistoryRow db now] ∧
    historyFor (add_request db now data 3).1 db.next_request_id = [initHistoryRow db now] := by
  refine ⟨rfl, rfl, rfl, rfl, rfl, rfl, rfl, rfl, rfl, ?_⟩
  show (db.status_history ++ [initHistoryRow db now]).filter
      (fun h => h.request_id == db.next_request_id) = [initHistoryRow db now]
  rw [List.filter_append]
  have h1 : db.status_history.filter (fun h => h.request_id == db.next_request_id) = [] := by
    refine List.filter_eq_nil_iff.mpr ?_
    intro a ha
    simpa using hfresh a ha
  have h2 : [initHistoryRow db now].filter (fun h => h.request_id == db.next_request_id) =
      [initHistoryRow db now] := by
    simp [initHistoryRow]
  rw [h1, h2, List.nil_append]

/-- Witness for C5 at the concrete sample database. -/
theorem c5_witness :
    (∀ h ∈ dbSample.status_history, h.request_id ≠ dbSample.next_request_id) ∧
    ((add_request dbSample 1000 dataSample 3).2 = some dbSample.next_request_id ∧
     (add_request dbSample 1000 dataSample 3).1.requests =
        dbSample.requests ++ [newRequestRow dbSample 1000 dataSample 3] ∧
     (newRequestRow dbSample 1000 dataSample 3).status = "открыта" ∧
     (newRequestRow dbSample 1000 dataSample 3).deadline = some (fmtTs (1000 + 3 * 86400)) ∧
     (newRequestRow dbSample 1000 dataSample 3).completed_date = none ∧
     (initHistoryRow dbSample 1000).old_status = none ∧
     (initHistoryRow dbSample 1000).new_status = "открыта" ∧
     (initHistoryRow dbSample 1000).request_id = dbSample.next_request_id ∧
     (add_request dbSample 1000 dataSample 3).1.status_history =
        dbSample.status_history ++ [initHistoryRow dbSample 1000] ∧
     historyFor (add_request dbSample 1000 dataSample 3).1 dbSample.next_request_id =
        [initHistoryRow dbSample 1000]) :=
  ⟨by decide, c5_create_defaults dbSample 1000 dataSample (by decide)⟩

/-- A leading piece stays a leading piece after appending. -/
theorem listLead_append (l m : List Char) : listLead l (l ++ m) = true := by
  induction l with
  | nil => rfl
  | cons a as ih => simp [listLead, ih]

/-- String version of `listLead_append`. -/
theorem strLead_append (p s : String) : strLead p (p ++ s) = true := by
  unfold strLead
  rw [String.data_append]
  exact listLead_append p.data s.data

/-- In a serialized creation run whose calls all fall on day `d`, the
numbers generated are the day prefix followed by consecutive sequence
values counting up from the pre-existing same-day count plus one. -/
theorem addSeq_numbers_aux (items : List (Int × AddRequestData)) (d : Int) :
    ∀ db : Db, (∀ p ∈ items, p.1 / 86400 = d) →
    (addSeq db items).2 = (List.range items.length).map
      (fun i => "REQ" ++ padZeros 8 (toString d) ++
        padZeros 4 (toString (sameDayCount db d + i + 1))) := by
  induction items with
  | nil => intro db _; rfl
  | cons item rest ih =>
    intro db hday
    obtain ⟨t, data⟩ := item
    have hd : t / 86400 = d := hday (t, data) (List.mem_cons_self _ _)
    have hdp : datePart t = padZeros 8 (toString d) := by unfold datePart; rw [hd]
    have hrest : ∀ p ∈ rest, p.1 / 86400 = d := fun p hp => hday p (List.mem_cons_of_mem _ hp)
    show (generate_request_number db t) :: (addSeq (add_request db t data 3).1 rest).2 = _
    rw [ih _ hrest]
    have hgen : generate_request_number db t =
        ("REQ" ++ padZeros 8 (toString d)) ++ padZeros 4 (toString (sameDayCount db d + 1)) := by
      unfold generate_request_number sameDayCount
      rw [hdp]
    have hcount : sameDayCount (add_request db t data 3).1 d = sameDayCount db d + 1 := by
      unfold sameDayCount
      show ((db.requests ++ [newRequestRow db t data 3]).filter _).length = _
      rw [List.filter_append, List.length_append]
      have hnew : strLead ("REQ" ++ padZeros 8 (toString d))
          (newRequestRow db t data 3).request_number = true := by
        show strLead _ (generate_request_number db t) = true
        rw [hgen]
        exact strLead_append _ _
      simp [hnew]
    rw [hcount]
    show _ = (List.range (rest.length + 1)).map _
    rw [List.range_succ_eq_map, List.map_cons, List.map_map]
    refine congrArg₂ _ ?_ ?_
    · rw [hgen]
    · refine List.map_congr_left ?_
      intro i _
      show "REQ" ++ padZeros 8 (toString d) ++
          padZeros 4 (toString (sameDayCount db d + 1 + i + 1)) = _
      rw [show sameDayCount db d + 1 + i + 1 = sameDayCount db d + (i + 1) + 1 by omega]
      rfl

/-- C6: every generated request number is the `REQ` prefix, the creation
day, and a four-digit zero-padded sequence equal to the count of existing
same-day-prefixed numbers plus one; starting from a database with no
same-day numbers, a serialized same-day creation run therefore yields the
sequence values 1, 2, 3, … in order — strictly increasing with no gaps. -/
theorem c6_request_numbers (db : Db) (items : List (Int × AddRequestData)) (d : Int)
    (hday : ∀ p ∈ items, p.1 / 86400 = d)
    (hclean : sameDayCount db d = 0) :
    (∀ t : Int, generate_request_number db t =
        "REQ" ++ datePart t ++ padZeros 4 (toString
          ((db.requests.filter fun r =>
            strLead ("REQ" ++ datePart t) r.request_number).length + 1))) ∧
    (addSeq db items).2 = (List.range items.length).map
      (fun i => "REQ" ++ padZeros 8 (toString d) ++ padZeros 4 (toString (i + 1))) := by
  refine ⟨fun t => rfl, ?_⟩
  rw [addSeq_numbers_aux items d db hday]
  refine List.map_congr_left ?_
  intro i _
  rw [hclean]
  simp

/-- Witness for C6: two same-day creations on the empty database produce
the numbers `…0001` and `…0002`. -/
theorem c6_witness :
    (∀ p ∈ [((86400 * 5 + 10 : Int), dataSample), ((86400 * 5 + 20 : Int), dataSample)],
        p.1 / 86400 = (5 : Int)) ∧
    sameDayCount dbEmpty 5 = 0 ∧
    (addSeq dbEmpty [((86400 * 5 + 10 : Int), dataSample), ((86400 * 5 + 20 : Int), dataSample)]).2 =
      (List.range 2).map
        (fun i => "REQ" ++ padZeros 8 (toString (5 : Int)) ++ padZeros 4 (toString (i + 1))) :=
  ⟨by decide, by decide,
    (c6_request_numbers dbEmpty
      [((86400 * 5 + 10 : Int), dataSample), ((86400 * 5 + 20 : Int), dataSample)] 5
      (by decide) (by decide)).2⟩

/-- C7: the risk indicator is computed over the effective deadline (the
extended deadline when present, else the planned one): empty for a
completed request, empty when no effective deadline exists, empty when the
stored text fails to parse (the exception is swallowed, never raised),
`'Просрочено'` (overdue) when the deadline lies before `now`, `'Риск
срыва'` (at risk) when it is at most 24 hours away, `'В сроке'` (on track)
otherwise. -/
theorem c7_deadline_state (r : RequestRow) (now : Int) :
    (r.status = "завершена" → deadline_state r now = "") ∧
    (effective_deadline r = "" → deadline_state r now = "") ∧
    (parseTs (effective_deadline r) = none → deadline_state r now = "") ∧
    (∀ dt : Int, r.status ≠ "завершена" → parseTs (effective_deadline r) = some dt →
      ((dt < now → deadline_state r now = "Просрочено") ∧
       (now ≤ dt → dt ≤ now + 24 * 3600 → deadline_state r now = "Риск срыва") ∧
       (now + 24 * 3600 < dt → deadline_state r now = "В сроке"))) := by
  refine ⟨?_, ?_, ?_, ?_⟩
  · intro h; simp [deadline_state, h]
  · intro h
    unfold deadline_state
    by_cases hs : r.status = "завершена"
    · simp [hs]
    · simp [hs, h]
  · intro h
    unfold deadline_state
    by_cases hs : r.status = "завершена"
    · simp [hs]
    · by_cases he : effective_deadline r = ""
      · simp [hs, he]
      · simp [hs, he, h]
  · intro dt hs hp
    have he : ¬ effective_deadline r = "" := by
      intro he
      rw [he] at hp
      exact Option.noConfusion ((show parseTs "" = none from rfl) ▸ hp)
    refine ⟨?_, ?_, ?_⟩
    · intro hlt
      have hd : dt - now < 0 := by omega
      simp [deadline_state, hs, he, hp, hd]
    · intro hge hle
      have hd : ¬ dt - now < 0 := by omega
      have hd2 : dt - now ≤ 24 * 3600 := by omega
      simp [deadline_state, hs, he, hp, hd, hd2]
      omega
    · intro hgt
      have hd : ¬ dt - now < 0 := by omega
      have hd2 : ¬ dt - now ≤ 24 * 3600 := by omega
      simp [deadline_state, hs, he, hp, hd, hd2]
      omega

/-- Witness for C7: the sample request's deadline (second 259200) is
overdue at `now = 300000`. -/
theorem c7_witness :
    (rqSample.status ≠ "завершена" ∧
     parseTs (effective_deadline rqSample) = some 259200 ∧
     (259200 : Int) < 300000) ∧
    deadline_state rqSample 300000 = "Просрочено" :=
  ⟨⟨by decide, by decide, by decide⟩,
    ((c7_deadline_state rqSample 300000).2.2.2 259200 (by decide) (by decide)).1 (by decide)⟩

/-- C10: `authenticate_user` returns a user row exactly when some stored
user matches the given username, has the hash of the supplied password as
stored password, and is active; any returned row is such a match, so in
every other case — including a deactivated user supplying the correct
password — the result is `none`. -/
theorem c10_authenticate (hash : String → String) (db : Db)
    (username password : String) :
    (∀ u, authenticate_user hash db username password = some u →
        u ∈ db.users ∧ u.username = username ∧ u.password = hash password ∧
        u.is_active = true) ∧
    ((authenticate_user hash db username password).isSome ↔
        ∃ u ∈ db.users, u.username = username ∧ u.password = hash password ∧
          u.is_active = true) := by
  constructor
  · intro u hu
    have hmem : u ∈ db.users := List.mem_of_find?_eq_some hu
    have hpred := List.find?_some hu
    simp only [Bool.and_eq_true, beq_iff_eq] at hpred
    exact ⟨hmem, hpred.1.1, hpred.1.2, hpred.2⟩
  · unfold authenticate_user
    rw [List.find?_isSome]
    constructor
    · rintro ⟨u, hmem, hpred⟩
      simp only [Bool.and_eq_true, beq_iff_eq] at hpred
      exact ⟨u, hmem, hpred.1.1, hpred.1.2, hpred.2⟩
    · rintro ⟨u, hmem, h1, h2, h3⟩
      refine ⟨u, hmem, ?_⟩
      simp [h1, h2, h3]

/-- Witness for C10: `uSpec` authenticates with the matching name and
stored hash, and the deactivated-or-mismatched cases are excluded by the
characterisation. -/
theorem c10_witness :
    (authenticate_user hashId dbSample "ivanov" "h2").isSome ↔
      ∃ u ∈ dbSample.users, u.username = "ivanov" ∧ u.password = hashId "h2" ∧
        u.is_active = true :=
  (c10_authenticate hashId dbSample "ivanov" "h2").2

/-- A joined view always carries the help id of the row it was built from. -/
theorem mkHelpView_help_id (db : Db) (h : HelpRequestRow) (v : HelpView)
    (hv : mkHelpView db h = some v) : v.help_id = h.id := by
  unfold mkHelpView at hv
  cases h1 : db.requests.find? (fun r => r.id == h.request_id) with
  | none => rw [h1] at hv; simp at hv
  | some r =>
    rw [h1] at hv
    cases h2 : db.users.find? (fun u => u.id == h.requested_by) with
    | none => rw [h2] at hv; simp at hv
    | some u3 =>
      rw [h2] at hv
      injection hv with hv
      subst hv
      rfl

/-- Membership in the open-help listing is exactly: an `'open'` help row of
the table whose joins succeed and produce the view. -/
theorem mem_list_open_iff (db : Db) (v : HelpView) :
    v ∈ list_open_help_requests db ↔
      ∃ h ∈ db.help_requests, h.status = "open" ∧ mkHelpView db h = some v := by
  unfold list_open_help_requests
  rw [List.mem_insertionSort, List.mem_filterMap]
  constructor
  · rintro ⟨h, hh, hv⟩
    rw [List.mem_filter] at hh
    exact ⟨h, hh.1, by simpa using hh.2, hv⟩
  · rintro ⟨h, hmem, hopen, hv⟩
    exact ⟨h, List.mem_filter.mpr ⟨hmem, by simp [hopen]⟩, hv⟩

/-- The open-help listing is ordered newest-first. -/
theorem sorted_list_open (db : Db) :
    List.Sorted hvNewer (list_open_help_requests db) :=
  List.sorted_insertionSort hvNewer _

/-- C8: several open help rows may coexist on one request, and resolving
one mutates only the addressed row: both open rows appear in the listing
beforehand; after resolving the first, every other help row — in
particular the second, still `'open'` — is untouched and the second is
still listed; the listing always contains exactly the open help rows with
successful joins, ordered newest-first. -/
theorem c8_help_requests (db : Db) (now : Int) (h1 h2 : HelpRequestRow)
    (rby : Nat) (note : String)
    (hm1 : h1 ∈ db.help_requests) (hm2 : h2 ∈ db.help_requests)
    (hne : h2.id ≠ h1.id)
    (ho1 : h1.status = "open") (ho2 : h2.status = "open")
    (v1 v2 : HelpView)
    (hv1 : mkHelpView db h1 = some v1) (hv2 : mkHelpView db h2 = some v2) :
    (v1 ∈ list_open_help_requests db ∧ v1.help_id = h1.id) ∧
    (v2 ∈ list_open_help_requests db ∧ v2.help_id = h2.id) ∧
    h2 ∈ (resolve_help_request db now h1.id rby note).1.help_requests ∧
    (∀ h ∈ db.help_requests, h.id ≠ h1.id →
        h ∈ (resolve_help_request db now h1.id rby note).1.help_requests) ∧
    v2 ∈ list_open_help_requests (resolve_help_request db now h1.id rby note).1 ∧
    List.Sorted hvNewer
      (list_open_help_requests (resolve_help_request db now h1.id rby note).1) ∧
    (∀ v : HelpView,
        v ∈ list_open_help_requests (resolve_help_request db now h1.id rby note).1 ↔
        ∃ h ∈ (resolve_help_request db now h1.id rby note).1.help_requests,
          h.status = "open" ∧
          mkHelpView (resolve_help_request db now h1.id rby note).1 h = some v) := by
  have hmk : ∀ h : HelpRequestRow,
      mkHelpView (resolve_help_request db now h1.id rby note).1 h = mkHelpView db h :=
    fun _ => rfl
  have hframe : ∀ h ∈ db.help_requests, h.id ≠ h1.id →
      h ∈ (resolve_help_request db now h1.id rby note).1.help_requests := by
    intro h hmem hne'
    have hb : (h.id == h1.id) = false := beq_eq_false_iff_ne.mpr hne'
    refine List.mem_map.mpr ⟨h, hmem, ?_⟩
    simp [hb]
  have hmem2 : h2 ∈ (resolve_help_request db now h1.id rby note).1.help_requests :=
    hframe h2 hm2 hne
  refine ⟨⟨?_, mkHelpView_help_id db h1 v1 hv1⟩,
          ⟨?_, mkHelpView_help_id db h2 v2 hv2⟩, hmem2, hframe, ?_, ?_, ?_⟩
  · exact (mem_list_open_iff db v1).mpr ⟨h1, hm1, ho1, hv1⟩
  · exact (mem_list_open_iff db v2).mpr ⟨h2, hm2, ho2, hv2⟩
  · exact (mem_list_open_iff _ v2).mpr ⟨h2, hmem2, ho2, (hmk h2).trans hv2⟩
  · exact sorted_list_open _
  · intro v
    exact mem_list_open_iff _ v

/-- Witness for C8: two concrete open help rows on the same request; after
resolving the first, the second is still listed. -/
theorem c8_witness :
    (hrq1 ∈ dbHelp.help_requests ∧ hrq2 ∈ dbHelp.help_requests ∧
     hrq2.id ≠ hrq1.id ∧ hrq1.status = "open" ∧ hrq2.status = "open" ∧
     mkHelpView dbHelp hrq1 = some vw1 ∧ mkHelpView dbHelp hrq2 = some vw2) ∧
    vw2 ∈ list_open_help_requests (resolve_help_request dbHelp 100 hrq1.id 1 "решено").1 :=
  ⟨⟨by decide, by decide, by decide, rfl, rfl, by decide, by decide⟩,
    (c8_help_requests dbHelp 100 hrq1 hrq2 1 "решено" (by decide) (by decide)
      (by decide) rfl rfl vw1 vw2 (by decide) (by decide)).2.2.2.2.1⟩

/-- A single whitelist assignment never touches the out-of-whitelist
columns. -/
theorem setAllowedField_frame (r : RequestRow) (k : String) (v : FieldVal) :
    frameProj (setAllowedField r k v) = frameProj r := by
  unfold setAllowedField
  split_ifs <;> rfl

/-- The whole `SET` clause never touches the out-of-whitelist columns. -/
theorem applyAllowed_frame (upd : List (String × FieldVal)) (r : RequestRow) :
    frameProj (applyAllowed upd r) = frameProj r := by
  unfold applyAllowed
  generalize allowedFields = l
  induction l generalizing r with
  | nil => rfl
  | cons k ks ih =>
    rw [List.foldl_cons]
    refine (ih _).trans ?_
    cases h : upd.lookup k with
    | none => simp [h]
    | some v => simp [h, setAllowedField_frame]

/-- Filtering the input down to whitelisted keys changes no whitelisted
lookup. -/
theorem lookup_filter_allowed (upd : List (String × FieldVal)) (k : String)
    (hk : allowedFields.contains k = true) :
    (upd.filter fun kv => allowedFields.contains kv.1).lookup k = upd.lookup k := by
  induction upd with
  | nil => rfl
  | cons kv rest ih =>
    obtain ⟨k1, v1⟩ := kv
    by_cases h : allowedFields.contains k1 = true
    · rw [List.filter_cons_of_pos (by simpa using h)]
      show List.lookup k ((k1, v1) :: _) = List.lookup k ((k1, v1) :: rest)
      simp only [List.lookup]
      cases hkk : (k == k1) with
      | true => rfl
      | false => exact ih
    · rw [List.filter_cons_of_neg (by simpa using h)]
      have hne : (k == k1) = false := by
        cases hkk : (k == k1) with
        | false => rfl
        | true => exact absurd ((eq_of_beq hkk) ▸ hk) h
      show _ = List.lookup k ((k1, v1) :: rest)
      simp only [List.lookup, hne]
      exact ih

/-- The `SET` clause only consults whitelisted lookups, so agreeing inputs
act identically. -/
theorem applyAllowed_congr (upd upd2 : List (String × FieldVal))
    (h : ∀ k ∈ allowedFields, upd.lookup k = upd2.lookup k) (r : RequestRow) :
    applyAllowed upd r = applyAllowed upd2 r := by
  unfold applyAllowed
  have hgen : ∀ l : List String, (∀ k ∈ l, upd.lookup k = upd2.lookup k) → ∀ r : RequestRow,
      List.foldl (fun acc k => match upd.lookup k with
        | some v => setAllowedField acc k v
        | none => acc) r l =
      List.foldl (fun acc k => match upd2.lookup k with
        | some v => setAllowedField acc k v
        | none => acc) r l := by
    intro l
    induction l with
    | nil => intro _ r; rfl
    | cons k ks ih =>
      intro hl r
      rw [List.foldl_cons, List.foldl_cons]
      rw [hl k (List.mem_cons_self _ _)]
      exact ih (fun k2 hk2 => hl k2 (List.mem_cons_of_mem _ hk2)) _
  exact hgen allowedFields h r

/-- C9: `update_request` writes only whitelisted columns — the status
history and, on every row, the status, the completion timestamp and all
other out-of-whitelist columns are unchanged — and any key of the input
outside the whitelist is ignored: filtering the input down to the
whitelist gives the identical call result. -/
theorem c9_update_whitelist (db : Db) (rid : Nat) (upd : List (String × FieldVal)) :
    (update_request db rid upd).1.status_history = db.status_history ∧
    (update_request db rid upd).1.requests.map frameProj = db.requests.map frameProj ∧
    update_request db rid upd =
      update_request db rid (upd.filter fun kv => allowedFields.contains kv.1) := by
  refine ⟨?_, ?_, ?_⟩
  · unfold update_request
    by_cases h : (allowedFields.filter fun k => (upd.lookup k).isSome).isEmpty <;> simp [h]
  · unfold update_request
    by_cases h : (allowedFields.filter fun k => (upd.lookup k).isSome).isEmpty
    · simp [h]
    · simp only [h, Bool.false_eq_true, if_false, List.map_map]
      refine List.map_congr_left ?_
      intro r _
      show frameProj (if (r.id == rid) = true then applyAllowed upd r else r) = frameProj r
      by_cases hid : (r.id == rid) = true
      · rw [if_pos hid]; exact applyAllowed_frame upd r
      · rw [if_neg hid]
  · have hlk : ∀ k ∈ allowedFields,
        upd.lookup k = (upd.filter fun kv => allowedFields.contains kv.1).lookup k := by
      intro k hk
      exact (lookup_filter_allowed upd k (List.elem_eq_true_of_mem hk)).symm
    unfold update_request
    have hks : (allowedFields.filter fun k => (upd.lookup k).isSome) =
        (allowedFields.filter fun k =>
          (((upd.filter fun kv => allowedFields.contains kv.1).lookup k)).isSome) := by
      refine List.filter_congr ?_
      intro k hk
      rw [hlk k hk]
    have happ : ∀ r : RequestRow, applyAllowed upd r =
        applyAllowed (upd.filter fun kv => allowedFields.contains kv.1) r :=
      applyAllowed_congr _ _ hlk
    rw [← hks]
    by_cases h : (allowedFields.filter fun k => (upd.lookup k).isSome).isEmpty
    · simp [h]
    · simp only [h, Bool.false_eq_true, if_false]
      have hmaps : (db.requests.map fun r =>
            if (r.id == rid) = true then applyAllowed upd r else r) =
          (db.requests.map fun r =>
            if (r.id == rid) = true then
              applyAllowed (upd.filter fun kv => allowedFields.contains kv.1) r
            else r) := by
        refine List.map_congr_left ?_
        intro r _
        by_cases hid : (r.id == rid) = true
        · rw [if_pos hid, if_pos hid, happ r]
        · rw [if_neg hid, if_neg hid]
      rw [hmaps]
